import Mathlib

/-!
Verification development for the IPO tracker dashboard (src/app.py).

The Python source is shallowly embedded: strings are Lean `String`s
(operated on through their `List Char` data), Python `datetime.date`
values become the `Date` structure below with Python's tuple-lexicographic
comparison and civil-calendar day arithmetic, `None`/NaN cells become
`Option`, and network calls are abstracted as an explicit `Fetched`
response value handed to each fetcher.
-/

/-! ## Character and string primitives (models of the Python str operations used) -/

/-- ASCII whitespace recognised by Python `str.strip` / `str.split` on the
inputs in scope. -/
def isWsChar (c : Char) : Bool :=
  c = ' ' || c = '\t' || c = '\n' || c = '\r'

/-- The ten ASCII digit characters (the digits matched by strptime fields
and by Python `int`). -/
def digitChars : List Char := ['0', '1', '2', '3', '4', '5', '6', '7', '8', '9']

/-- Membership test in `digitChars`. -/
def isDigitC (c : Char) : Bool := digitChars.contains c

/-- ASCII lower-casing of one character (model of `str.lower` on the ASCII
inputs in scope). -/
def lowerChar (c : Char) : Char :=
  if 'A' ≤ c ∧ c ≤ 'Z' then Char.ofNat (c.toNat + 32) else c

/-- Model of Python `str.lower`. -/
def lowerStr (s : String) : String := ⟨s.data.map lowerChar⟩

/-- Strip leading whitespace from a character list. -/
def stripLeft (l : List Char) : List Char := l.dropWhile isWsChar

/-- Model of Python `str.strip` (leading and trailing whitespace removed). -/
def pyStrip (s : String) : String :=
  ⟨(stripLeft (stripLeft s.data.reverse).reverse)⟩

/-- Boolean test that the first list is a leading segment of the second. -/
def leadsWith : List Char → List Char → Bool
  | [], _ => true
  | _ :: _, [] => false
  | a :: as, b :: bs => a = b && leadsWith as bs

/-- Boolean substring occurrence test on character lists. -/
def hasSub (pat : List Char) : List Char → Bool
  | [] => leadsWith pat []
  | c :: rest => leadsWith pat (c :: rest) || hasSub pat rest

/-- Model of Python `pat in hay` (substring containment). -/
def strContains (hay pat : String) : Bool := hasSub pat.data hay.data

/-- Model of Python `hay.startswith(pat)`. -/
def strStarts (pat hay : String) : Bool := leadsWith pat.data hay.data

/-- Auxiliary accumulator-based whitespace splitter. -/
def splitWsAux : List Char → List Char → List (List Char)
  | [], acc => if acc = [] then [] else [acc.reverse]
  | c :: rest, acc =>
      if isWsChar c then
        if acc = [] then splitWsAux rest [] else acc.reverse :: splitWsAux rest []
      else splitWsAux rest (c :: acc)

/-- Model of Python `str.split()` with no argument: split on runs of
whitespace, discarding empty fields. -/
def pySplitWs (s : String) : List String :=
  (splitWsAux s.data []).map (fun l => ⟨l⟩)

/-- Auxiliary accumulator-based single-character splitter. -/
def splitOnCharAux (sep : Char) : List Char → List Char → List (List Char)
  | [], acc => [acc.reverse]
  | c :: rest, acc =>
      if c = sep then acc.reverse :: splitOnCharAux sep rest []
      else splitOnCharAux sep rest (c :: acc)

/-- Model of Python `str.split(sep)` for a one-character separator
(empty fields kept). -/
def splitOnChar (sep : Char) (s : String) : List String :=
  (splitOnCharAux sep s.data []).map (fun l => ⟨l⟩)

/-- Model of Python `str.split(sep, 1)`: split at the first occurrence of
the separator.  When the separator is absent the whole string is the left
part (callers in the source always guard on containment first). -/
def splitOnceChar (sep : Char) (s : String) : String × String :=
  (⟨s.data.takeWhile (fun c => c != sep)⟩,
   ⟨(s.data.dropWhile (fun c => c != sep)).drop 1⟩)

/-- Model of Python `" ".join`. -/
def joinSpace : List String → String
  | [] => ""
  | [s] => s
  | s :: rest => s ++ " " ++ joinSpace rest

/-- Value of a non-empty all-digit character list; `none` otherwise. -/
def digitsVal (l : List Char) : Option Nat :=
  if l ≠ [] ∧ l.all isDigitC then
    some (l.foldl (fun acc c => acc * 10 + (c.toNat - 48)) 0)
  else none

/-- Model of Python `int(s)` on the tokens in scope: an optional sign
followed by ASCII digits (such tokens come from `str.split`, hence carry
no surrounding whitespace). -/
def pyInt (s : String) : Option Int :=
  match s.data with
  | '+' :: rest => (digitsVal rest).map Int.ofNat
  | '-' :: rest => (digitsVal rest).map (fun n => -(n : Int))
  | l => (digitsVal l).map Int.ofNat

/-! ## Dates: model of `datetime.date` -/

/-- A calendar date; mirrors `datetime.date` (year, month, day). -/
structure Date where
  year : Int
  month : Nat
  day : Nat
deriving DecidableEq, Repr

/-- Python `date <=` (tuple-lexicographic). -/
def dateLe (a b : Date) : Bool :=
  if a.year < b.year then true
  else if b.year < a.year then false
  else if a.month < b.month then true
  else if b.month < a.month then false
  else if a.day ≤ b.day then true else false

/-- Python `date <` (tuple-lexicographic). -/
def dateLt (a b : Date) : Bool :=
  if a.year < b.year then true
  else if b.year < a.year then false
  else if a.month < b.month then true
  else if b.month < a.month then false
  else if a.day < b.day then true else false

/-- Gregorian leap-year test, as in `calendar`/`datetime`. -/
def isLeapYear (y : Int) : Bool :=
  (y % 4 == 0 && y % 100 != 0) || y % 400 == 0

/-- Number of days in a month of a given year (0 for month numbers outside
1..12, which never pass validation). -/
def daysInMonth (y : Int) (m : Nat) : Nat :=
  if m = 1 then 31 else if m = 2 then (if isLeapYear y then 29 else 28)
  else if m = 3 then 31 else if m = 4 then 30 else if m = 5 then 31
  else if m = 6 then 30 else if m = 7 then 31 else if m = 8 then 31
  else if m = 9 then 30 else if m = 10 then 31 else if m = 11 then 30
  else if m = 12 then 31 else 0

/-- Days since 1970-01-01 of a civil date (standard civil-from-days
algorithm, floor divisions). -/
def daysFromCivil (d : Date) : Int :=
  let y : Int := if d.month ≤ 2 then d.year - 1 else d.year
  let era : Int := Int.fdiv y 400
  let yoe : Int := y - era * 400
  let mp : Int := if 2 < d.month then (d.month : Int) - 3 else (d.month : Int) + 9
  let doy : Int := Int.fdiv (153 * mp + 2) 5 + (d.day : Int) - 1
  let doe : Int := yoe * 365 + Int.fdiv yoe 4 - Int.fdiv yoe 100 + doy
  era * 146097 + doe - 719468

/-- Civil date of a count of days since 1970-01-01 (inverse of
`daysFromCivil`). -/
def civilFromDays (z0 : Int) : Date :=
  let z : Int := z0 + 719468
  let era : Int := Int.fdiv z 146097
  let doe : Int := z - era * 146097
  let yoe : Int :=
    Int.fdiv (doe - Int.fdiv doe 1460 + Int.fdiv doe 36524 - Int.fdiv doe 146096) 365
  let y : Int := yoe + era * 400
  let doy : Int := doe - (365 * yoe + Int.fdiv yoe 4 - Int.fdiv yoe 100)
  let mp : Int := Int.fdiv (5 * doy + 2) 153
  let dd : Int := doy - Int.fdiv (153 * mp + 2) 5 + 1
  let m : Int := if mp < 10 then mp + 3 else mp - 9
  ⟨(if m ≤ 2 then y + 1 else y), m.toNat, dd.toNat⟩

/-- Model of `date + timedelta(days=k)`. -/
def addDays (d : Date) (k : Int) : Date := civilFromDays (daysFromCivil d + k)

/-- Source `get_3_months_ago`: `dt.date.today() - dt.timedelta(days=90)`,
parameterised by today's date. -/
def get_3_months_ago (today : Date) : Date := addDays today (-90)


/-! ## Ordinal-suffix stripping and strptime models -/

/-- One pass of Python `str.replace(p, "")` for a two-character pattern:
left-to-right scan, matched pairs deleted, no rescanning of the output. -/
def replace2 (a b : Char) : List Char → List Char
  | [] => []
  | [c] => [c]
  | c :: c2 :: rest =>
      if c = a && c2 = b then replace2 a b rest
      else c :: replace2 a b (c2 :: rest)

/-- Character-list form of `strip_ordinal_suffix`: the source chains
`.replace("st","").replace("nd","").replace("rd","").replace("th","")`. -/
def stripOrdL (l : List Char) : List Char :=
  replace2 't' 'h' (replace2 'r' 'd' (replace2 'n' 'd' (replace2 's' 't' l)))

/-- Source `strip_ordinal_suffix`: delete every occurrence of the
substrings "st", "nd", "rd", "th" (in that pass order), anywhere in the
string. -/
def strip_ordinal_suffix (s : String) : String := ⟨stripOrdL s.data⟩

/-- The lower-cased abbreviated month names matched by strptime `%b`
(the C locale). -/
def monthAbbrevs : List String :=
  ["jan", "feb", "mar", "apr", "may", "jun", "jul", "aug", "sep", "oct", "nov", "dec"]

/-- Token accepted by the strptime `%d` field: one digit 1-9, or two
digits with value 01..31. -/
def parseDayTok (t : String) : Option Nat :=
  match t.data with
  | [c] => if isDigitC c && c ≠ '0' then some (c.toNat - 48) else none
  | [c1, c2] =>
      if isDigitC c1 && isDigitC c2 then
        let v := (c1.toNat - 48) * 10 + (c2.toNat - 48)
        if 1 ≤ v ∧ v ≤ 31 then some v else none
      else none
  | _ => none

/-- Token accepted by the strptime `%b` field (case-insensitive
abbreviated month name), returning the month number. -/
def parseMonthTok (t : String) : Option Nat :=
  let s := lowerStr t
  if s = "jan" then some 1 else if s = "feb" then some 2
  else if s = "mar" then some 3 else if s = "apr" then some 4
  else if s = "may" then some 5 else if s = "jun" then some 6
  else if s = "jul" then some 7 else if s = "aug" then some 8
  else if s = "sep" then some 9 else if s = "oct" then some 10
  else if s = "nov" then some 11 else if s = "dec" then some 12
  else none

/-- Token accepted by the strptime `%Y` field: exactly four digits. -/
def parseYearTok (t : String) : Option Int :=
  match t.data with
  | [a, b, c, d] =>
      if isDigitC a && isDigitC b && isDigitC c && isDigitC d then
        some (((a.toNat - 48) * 1000 + (b.toNat - 48) * 100
               + (c.toNat - 48) * 10 + (d.toNat - 48) : Nat) : Int)
      else none
  | _ => none

/-- strptime on the three tokens of a `"%d %b %Y"` / `"%d-%b-%Y"` match:
field parses plus `datetime.date` construction (year at least MINYEAR = 1,
day within the month). -/
def strptimeTokensDMY (dTok mTok yTok : String) : Option Date :=
  match parseDayTok dTok, parseMonthTok mTok, parseYearTok yTok with
  | some d, some m, some y =>
      if 1 ≤ y ∧ d ≤ daysInMonth y m then some ⟨y, m, d⟩ else none
  | _, _, _ => none

/-- strptime on the two tokens of a `"%d %b"` match: the year defaults to
strptime's 1900, against which the day is validated. -/
def strptimeTokensDM (dTok mTok : String) : Option Date :=
  match parseDayTok dTok, parseMonthTok mTok with
  | some d, some m =>
      if d ≤ daysInMonth 1900 m then some ⟨1900, m, d⟩ else none
  | _, _ => none

/-- strptime of `f"{d} {m} {y}" ` with `"%d %b %Y"` where `y` is an int
the source formatted into the string: `%Y` only matches when the decimal
rendering is exactly four digits, i.e. `1000 <= y <= 9999`. -/
def strptimeDMYearInt (dTok mTok : String) (y : Int) : Option Date :=
  if 1000 ≤ y ∧ y ≤ 9999 then
    match parseDayTok dTok, parseMonthTok mTok with
    | some d, some m => if d ≤ daysInMonth y m then some ⟨y, m, d⟩ else none
    | _, _ => none
  else none

/-- Python `year or today.year` (`None` and `0` are falsy). -/
def yearOr (year : Option Int) (todayYear : Int) : Int :=
  match year with
  | some y => if y = 0 then todayYear else y
  | none => todayYear

/-- Body of `parse_day_month` after the ordinal-suffix stripping: strip
whitespace, split, dispatch on the token count, and run strptime with
format `"%d %b %Y"`. -/
def parse_day_month_after_strip (todayYear : Int) (t : String) (year : Option Int) :
    Option Date :=
  match pySplitWs (pyStrip t) with
  | [d, m] => strptimeDMYearInt d m (yearOr year todayYear)
  | [d, m, ys] =>
      strptimeDMYearInt d m (match pyInt ys with | some yy => yy | none => todayYear)
  | _ => none

/-- Source `parse_day_month(text, year)`: parse strings like `'8th Dec'`,
`'15 Dec'`, `'15 Dec 2025'`; ordinal suffixes are stripped first and a
missing year falls back to the given year or the current year
(`todayYear`). -/
def parse_day_month (todayYear : Int) (text : String) (year : Option Int) :
    Option Date :=
  parse_day_month_after_strip todayYear (strip_ordinal_suffix text) year

/-- The year-1900 fix-up in `parse_listing_date_screener`: a parsed value
whose year is 1900 gets the current year substituted. -/
def fixYear1900 (today : Date) (d : Date) : Date :=
  if d.year = 1900 then ⟨today.year, d.month, d.day⟩ else d

/-- strptime of the whole text against `"%d %b %Y"`: the literal spaces in
the format match whitespace runs, so the text must split into exactly
three tokens accepted by `%d`, `%b` and `%Y`. -/
def tryFmtDMY (text : String) : Option Date :=
  match pySplitWs text with
  | [d, m, y] => strptimeTokensDMY d m y
  | _ => none

/-- strptime of the whole text against `"%d-%b-%Y"`: literal hyphens, so
the text must split on hyphens into exactly three tokens. -/
def tryFmtDMYHyphen (text : String) : Option Date :=
  match splitOnChar '-' text with
  | [d, m, y] => strptimeTokensDMY d m y
  | _ => none

/-- strptime of the whole text against `"%d %b"` (year defaults to
1900). -/
def tryFmtDM (text : String) : Option Date :=
  match pySplitWs text with
  | [d, m] => strptimeTokensDM d m
  | _ => none

/-- The format loop of `parse_listing_date_screener`: try `"%d %b %Y"`,
then `"%d-%b-%Y"`, then `"%d %b"`, first success wins, with the year-1900
substitution applied to the parsed value. -/
def parse_listing_formats (today : Date) (text : String) : Option Date :=
  match tryFmtDMY text with
  | some dd => some (fixYear1900 today dd)
  | none =>
    match tryFmtDMYHyphen text with
    | some dd => some (fixYear1900 today dd)
    | none =>
      match tryFmtDM text with
      | some dd => some (fixYear1900 today dd)
      | none => none

/-- Source `parse_listing_date_screener(val)`: `None`/NaN yields no date;
the literals "today", "tomorrow", "yesterday" are relative to the current
date; otherwise the fixed format list is tried. -/
def parse_listing_date_screener (today : Date) (val : Option String) : Option Date :=
  match val with
  | none => none
  | some v =>
    let text := lowerStr (pyStrip v)
    if text = "today" then some today
    else if text = "tomorrow" then some (addDays today 1)
    else if text = "yesterday" then some (addDays today (-1))
    else parse_listing_formats today text


/-! ## DataFrame model, column normalization, and the two Screener fetchers -/

/-- A pandas DataFrame reduced to what the fetchers inspect: its column
labels (a flat name or a MultiIndex tuple of cells) with each column's
cell data. -/
inductive DataFrame
  | multi (cols : List (List (Option String) × List String))
  | flat (cols : List (String × List String))
deriving DecidableEq, Repr

/-- Flattening of one MultiIndex tuple in `normalize_columns`: keep the
stripped `str` of each non-`None` cell whose stripped lower-case form is
not "nan", join with single spaces, strip. -/
def flattenLabel (tup : List (Option String)) : String :=
  pyStrip (joinSpace (tup.filterMap (fun x =>
    match x with
    | none => none
    | some s => if lowerStr (pyStrip s) = "nan" then none else some (pyStrip s))))

/-- Drop predicate of `normalize_columns`: the stripped lower-cased name
contains both "sr" and "no", or starts with "unnamed". -/
def dropLabel (name : String) : Bool :=
  let n := lowerStr (pyStrip name)
  (strContains n "sr" && strContains n "no") || strStarts "unnamed" n

/-- Source `normalize_columns`: flatten MultiIndex columns, then drop
serial-number and unnamed columns. -/
def normalize_columns : DataFrame → DataFrame
  | DataFrame.multi cols =>
      DataFrame.flat ((cols.map (fun p => (flattenLabel p.1, p.2))).filter
        (fun p => !dropLabel p.1))
  | DataFrame.flat cols =>
      DataFrame.flat (cols.filter (fun p => !dropLabel p.1))

/-- Column names of a flat frame (the only shape `normalize_columns`
produces; a MultiIndex never reaches this accessor in the pipeline). -/
def dfCols : DataFrame → List String
  | DataFrame.flat cols => cols.map (fun p => p.1)
  | DataFrame.multi _ => []

/-- The `df.columns = cols` assignment in the fetchers: replace each flat
name with its stripped form. -/
def setColsStripped : DataFrame → DataFrame
  | DataFrame.flat cols => DataFrame.flat (cols.map (fun p => (pyStrip p.1, p.2)))
  | DataFrame.multi cols => DataFrame.multi cols

/-- Transport-level outcome of one HTTP request. -/
inductive NetError
  | timeout
  | connError
  | httpStatus (code : Nat)
deriving DecidableEq, Repr

/-- An abstract fetched response: either the successfully retrieved and
parsed payload, or a transport failure. -/
inductive Fetched (α : Type)
  | success (page : α)
  | failure (e : NetError)
deriving DecidableEq, Repr

/-- Model of `pd.read_html(url)`: yields the page's tables, and raises
(propagates an error) on any transport failure, timeout or non-success
HTTP status. -/
def read_html (r : Fetched (List DataFrame)) : Except NetError (List DataFrame) :=
  match r with
  | Fetched.success ts => Except.ok ts
  | Fetched.failure e => Except.error e

/-- Header test of `fetch_upcoming_raw`: the stripped column names contain
"Name", "Subscription Period" and "Listing Date". -/
def upcomingHeaderOk (cols : List String) : Bool :=
  cols.contains "Name" && cols.contains "Subscription Period"
    && cols.contains "Listing Date"

/-- Header test of `fetch_recent_raw`: the stripped column names contain
"Name" and "Listing Date", and some name contains "IPO MCap". -/
def recentHeaderOk (cols : List String) : Bool :=
  cols.contains "Name" && cols.contains "Listing Date"
    && cols.any (fun c => strContains c "IPO MCap")

/-- The selection loop shared by both raw fetchers: normalize each table,
take the first one whose stripped header passes the test (assigning it the
stripped names), and fall back to `pd.DataFrame()` — the empty frame —
when none passes. -/
def selectTable (ok : List String → Bool) : List DataFrame → DataFrame
  | [] => DataFrame.flat []
  | df :: rest =>
      let ndf := normalize_columns df
      let cols := (dfCols ndf).map pyStrip
      if ok cols then setColsStripped ndf else selectTable ok rest

/-- Source `fetch_upcoming_raw`: `pd.read_html` on the upcoming-IPO page
followed by the table-selection loop. -/
def fetch_upcoming_raw (r : Fetched (List DataFrame)) : Except NetError DataFrame :=
  (read_html r).map (selectTable upcomingHeaderOk)

/-- Source `fetch_recent_raw`: `pd.read_html` on the recent-IPO page
followed by the table-selection loop. -/
def fetch_recent_raw (r : Fetched (List DataFrame)) : Except NetError DataFrame :=
  (read_html r).map (selectTable recentHeaderOk)

/-! ## Row-level processing: `fetch_upcoming_processed`, `fetch_recent_processed`,
`fetch_past_last_3_months`, and the classification masks -/

/-- Python `str(cell)` on an optional cell (`NaN` renders as "nan"). -/
def pyStr : Option String → String
  | none => "nan"
  | some s => s

/-- One raw row of the upcoming table restricted to the columns the
processing reads (a missing cell is NaN). -/
structure UpRawRow where
  name : Option String
  subPeriod : Option String
  listing : Option String
deriving DecidableEq, Repr

/-- One processed upcoming-IPO record: the kept raw fields plus the parsed
listing date and subscription window. -/
structure UpRecord where
  name : Option String
  subPeriod : Option String
  listing : Option String
  listingDate : Option Date
  subStart : Option Date
  subEnd : Option Date
deriving DecidableEq, Repr

/-- Subscription-period parsing in `fetch_upcoming_processed`: split on
the first hyphen when one is present and parse each side with
`parse_day_month` under the listing-year fallback; otherwise parse the
whole text once and use it for both ends. -/
def parse_subscription (today : Date) (subText : String) (listingYear : Option Int) :
    Option Date × Option Date :=
  if strContains subText "-" then
    let lr := splitOnceChar '-' subText
    (parse_day_month today.year (pyStrip lr.1) listingYear,
     parse_day_month today.year (pyStrip lr.2) listingYear)
  else
    let s := parse_day_month today.year (pyStrip subText) listingYear
    (s, s)

/-- Per-row body of `fetch_upcoming_processed`: parse the listing date,
extract its year when it is a date, and parse the subscription window. -/
def processUpRow (today : Date) (r : UpRawRow) : UpRecord :=
  let ld := parse_listing_date_screener today r.listing
  let ly : Option Int := ld.map (fun d => d.year)
  let se := parse_subscription today (pyStr r.subPeriod) ly
  ⟨r.name, r.subPeriod, r.listing, ld, se.1, se.2⟩

/-- The `df["Name"].str.contains("sme", case=False, na=False)` mask: NaN
names give `False`. -/
def smeFiltered (name : Option String) : Bool :=
  match name with
  | none => false
  | some s => strContains (lowerStr s) "sme"

/-- Source `fetch_upcoming_processed` at row level: drop rows whose name
matches the SME mask, then parse dates for each remaining row. -/
def fetch_upcoming_processed (today : Date) (rows : List UpRawRow) : List UpRecord :=
  (rows.filter (fun r => !smeFiltered r.name)).map (processUpRow today)

/-- One raw row of the recent table restricted to the columns the
processing reads. -/
structure RecRawRow where
  name : Option String
  listing : Option String
deriving DecidableEq, Repr

/-- One processed recent-IPO record. -/
structure RecRecord where
  name : Option String
  listing : Option String
  listingDate : Option Date
deriving DecidableEq, Repr

/-- Per-row body of `fetch_recent_processed`: parse the listing date; no
row is dropped. -/
def processRecRow (today : Date) (r : RecRawRow) : RecRecord :=
  ⟨r.name, r.listing, parse_listing_date_screener today r.listing⟩

/-- Source `fetch_recent_processed` at row level. -/
def fetch_recent_processed (today : Date) (rows : List RecRawRow) : List RecRecord :=
  rows.map (processRecRow today)

/-- The `Series.between(lo, hi)` mask on the parsed listing-date column:
inclusive on both ends; a null entry compares `False`. -/
def betweenMask (lo hi : Date) (d : Option Date) : Bool :=
  match d with
  | some x => dateLe lo x && dateLe x hi
  | none => false

/-- Source `fetch_past_last_3_months`: keep the recent records whose
parsed listing date lies between `today - 90 days` and `today`. -/
def fetch_past_last_3_months (today : Date) (rows : List RecRawRow) : List RecRecord :=
  (fetch_recent_processed today rows).filter
    (fun r => betweenMask (get_3_months_ago today) today r.listingDate)

/-- Source `is_ongoing(row)` in the ongoing tab: both parsed subscription
bounds are dates and `start <= today <= end`. -/
def is_ongoing (today : Date) (r : UpRecord) : Bool :=
  match r.subStart, r.subEnd with
  | some s, some e => dateLe s today && dateLe today e
  | _, _ => false

/-- Source `mask_upcoming` in the upcoming tab: the parsed start is a date
and `start > today`. -/
def mask_upcoming (today : Date) (r : UpRecord) : Bool :=
  match r.subStart with
  | some d => dateLt today d
  | none => false

/-- The ongoing tab's record set (before the interactive search box). -/
def ongoing_view (today : Date) (rows : List UpRawRow) : List UpRecord :=
  (fetch_upcoming_processed today rows).filter (is_ongoing today)

/-- The upcoming tab's record set (before the interactive search box). -/
def upcoming_view (today : Date) (rows : List UpRawRow) : List UpRecord :=
  (fetch_upcoming_processed today rows).filter (mask_upcoming today)


/-! ## SEBI document locator -/

/-- One anchor from the listing page's tables (`soup.select("table a")`):
its stripped text and its optional href attribute. -/
structure Anchor where
  text : String
  href : Option String
deriving DecidableEq, Repr

/-- A SEBI listing-page HTTP response: status code and the anchors of the
parsed document. -/
structure SebiResponse where
  status : Nat
  anchors : List Anchor
deriving DecidableEq, Repr

/-- Source `_sebi_list_page`: any exception — transport failure or the
`raise_for_status()` on a 4xx/5xx status — is swallowed and yields `None`;
otherwise the parsed page is returned. -/
def sebi_list_page (r : Fetched SebiResponse) : Option (List Anchor) :=
  match r with
  | Fetched.failure _ => none
  | Fetched.success resp =>
      if 400 ≤ resp.status ∧ resp.status < 600 then none else some resp.anchors

/-- Python truthiness of an optional string (`None` and `""` are falsy). -/
def pyTruthy (o : Option String) : Bool :=
  match o with
  | some s => s != ""
  | none => false

/-- Python `a or b` on optional strings. -/
def pyOrStr (a b : Option String) : Option String :=
  if pyTruthy a then a else b

/-- First word of the lower-cased company name (`company_lc.split()[0]`
when non-empty; whitespace-only names, on which the source's indexing
would raise, are outside the modelled inputs and give `""` here). -/
def firstWordOf (company : String) : String :=
  let clc := lowerStr company
  if clc = "" then ""
  else match pySplitWs clc with
       | w :: _ => w
       | [] => ""

/-- Lower-cased anchor title, as the source computes it. -/
def anchorTitle (a : Anchor) : String := lowerStr a.text

/-- The anchor's href with `a.get("href") or ""` applied. -/
def anchorHref (a : Anchor) : String :=
  match a.href with
  | none => ""
  | some h => h

/-- Absolutize a SEBI href. -/
def absUrl (href : String) : String :=
  if strStarts "/" href then "https://www.sebi.gov.in" ++ href else href

/-- The three `continue` filters in `_pick_doc_from_listing`: non-empty
href, href under `/filings/public-issues/`, and (when the company has a
first word) that word occurring in the lower-cased title. -/
def anchorEligible (fw : String) (a : Anchor) : Bool :=
  (anchorHref a != "") && strContains (anchorHref a) "/filings/public-issues/"
    && (fw == "" || strContains (anchorTitle a) fw)

/-- The scan of `_pick_doc_from_listing`, carrying the first "rhp"-titled,
first "drhp"/"draft"-titled and first other eligible URL. -/
def pickAux (fw : String) : List Anchor → Option String → Option String →
    Option String → Option String × Option String × Option String
  | [], r, d, o => (r, d, o)
  | a :: rest, r, d, o =>
      if anchorEligible fw a then
        if strContains (anchorTitle a) "rhp" then
          pickAux fw rest (if r.isNone then some (absUrl (anchorHref a)) else r) d o
        else if strContains (anchorTitle a) "drhp"
            || strContains (anchorTitle a) "draft" then
          pickAux fw rest r (if d.isNone then some (absUrl (anchorHref a)) else d) o
        else
          pickAux fw rest r d (if o.isNone then some (absUrl (anchorHref a)) else o)
      else pickAux fw rest r d o

/-- Source `_pick_doc_from_listing`: scan the page's table anchors and
return `best_rhp or best_drhp or best_other`. -/
def pick_doc_from_listing (soup : Option (List Anchor)) (company : String) :
    Option String :=
  match soup with
  | none => none
  | some anchors =>
      let fw := firstWordOf company
      let t := pickAux fw anchors none none none
      pyOrStr t.1 (pyOrStr t.2.1 t.2.2)

/-- The listing-request parameters that vary across the three categories
tried by `get_best_sebi_ipo_doc`. -/
structure SebiParams where
  smid : String
  search : String
deriving DecidableEq, Repr

/-- Source `get_best_sebi_ipo_doc`: try the RHP listing (smid 11), then
the DRHP listing (smid 10), then the unfiltered public-issues listing
(smid 0), returning the first truthy pick.  The network is abstracted as
the function `net` from request parameters to a fetched response. -/
def get_best_sebi_ipo_doc (net : SebiParams → Fetched SebiResponse)
    (company : String) : Option String :=
  let u1 := pick_doc_from_listing (sebi_list_page (net ⟨"11", company⟩)) company
  if pyTruthy u1 then u1
  else
    let u2 := pick_doc_from_listing (sebi_list_page (net ⟨"10", company⟩)) company
    if pyTruthy u2 then u2
    else pick_doc_from_listing (sebi_list_page (net ⟨"0", company⟩)) company


/-! ## Spec-side definitions (stated from the specification's wording, for
comparison with the embedded code) -/

/-- Spec policy for the ongoing bucket: both subscription bounds are known
dates and `start <= today <= end`. -/
def specOngoing (today : Date) (r : UpRecord) : Prop :=
  ∃ s e, r.subStart = some s ∧ r.subEnd = some e
    ∧ dateLe s today = true ∧ dateLe today e = true

/-- Spec policy for the upcoming bucket: the subscription start is a known
date and `start > today` (the end need not be known). -/
def specUpcoming (today : Date) (r : UpRecord) : Prop :=
  ∃ s, r.subStart = some s ∧ dateLt today s = true

/-- Spec policy for the past bucket: the listing date is a known date in
the inclusive window `[today - 90 days, today]`. -/
def specPast (today : Date) (p : RecRecord) : Prop :=
  ∃ d, p.listingDate = some d
    ∧ dateLe (addDays today (-90)) d = true ∧ dateLe d today = true

/-- Spec-side table selection: the first table whose normalized, stripped
header passes the test (carrying the stripped names), if any. -/
def firstMatchingTable (ok : List String → Bool) (tables : List DataFrame) :
    Option DataFrame :=
  (tables.map (fun df => setColsStripped (normalize_columns df))).find?
    (fun d => ok (dfCols d))

/-- Keep the current option if present, otherwise take the new one. -/
def optFill (cur new : Option String) : Option String :=
  match cur with
  | some x => some x
  | none => new

/-- Bucket test of the scan: the lower-cased title contains "rhp". -/
def pickRhpPred (a : Anchor) : Bool := strContains (anchorTitle a) "rhp"

/-- Bucket test of the scan: no "rhp" substring, but "drhp" or "draft"
occurs (so effectively "draft", since "drhp" contains "rhp"). -/
def pickDraftPred (a : Anchor) : Bool :=
  !pickRhpPred a && (strContains (anchorTitle a) "drhp"
    || strContains (anchorTitle a) "draft")

/-- Bucket test of the scan: none of the title keywords occurs. -/
def pickOtherPred (a : Anchor) : Bool :=
  !pickRhpPred a && !(strContains (anchorTitle a) "drhp"
    || strContains (anchorTitle a) "draft")

/-- Spec-side document pick: among eligible anchors, the first one whose
title contains "rhp", else the first draft-titled one, else the first
other one. -/
def specPickDoc (company : String) (anchors : List Anchor) : Option String :=
  let fw := firstWordOf company
  let elig := anchors.filter (anchorEligible fw)
  pyOrStr ((elig.find? pickRhpPred).map (fun a => absUrl (anchorHref a)))
    (pyOrStr ((elig.find? pickDraftPred).map (fun a => absUrl (anchorHref a)))
      ((elig.find? pickOtherPred).map (fun a => absUrl (anchorHref a))))

/-! ## Helper lemmas -/

lemma is_ongoing_eq_true_iff (today : Date) (r : UpRecord) :
    is_ongoing today r = true ↔ specOngoing today r := by
  unfold is_ongoing specOngoing
  cases h1 : r.subStart <;> cases h2 : r.subEnd <;>
    simp [Bool.and_eq_true]

lemma mask_upcoming_eq_true_iff (today : Date) (r : UpRecord) :
    mask_upcoming today r = true ↔ specUpcoming today r := by
  unfold mask_upcoming specUpcoming
  cases h1 : r.subStart <;> simp

lemma betweenMask_eq_true_iff (today : Date) (p : RecRecord) :
    betweenMask (get_3_months_ago today) today p.listingDate = true ↔
      specPast today p := by
  unfold betweenMask specPast get_3_months_ago
  cases h : p.listingDate <;> simp [Bool.and_eq_true]

lemma filter_self_filter {α} (p : α → Bool) (l : List α) :
    (l.filter p).filter p = l.filter p := by
  induction l with
  | nil => rfl
  | cons a l ih =>
      by_cases h : p a = true
      · simp [List.filter_cons, h, ih]
      · simp [List.filter_cons, h, ih]

lemma dfCols_setColsStripped (d : DataFrame) :
    dfCols (setColsStripped d) = (dfCols d).map pyStrip := by
  cases d <;> simp [dfCols, setColsStripped, List.map_map, Function.comp]

lemma selectTable_eq_firstMatching (ok : List String → Bool)
    (tables : List DataFrame) :
    selectTable ok tables = (firstMatchingTable ok tables).getD (DataFrame.flat []) := by
  induction tables with
  | nil => rfl
  | cons df rest ih =>
      unfold selectTable firstMatchingTable
      by_cases h : ok ((dfCols (normalize_columns df)).map pyStrip) = true
      · rw [if_pos h]
        rw [List.map_cons, List.find?_cons_of_pos]
        · rfl
        · rw [dfCols_setColsStripped]; exact h
      · rw [if_neg h]
        rw [List.map_cons, List.find?_cons_of_neg]
        · exact ih
        · rw [dfCols_setColsStripped]
          simpa using h

/-! ## Claim theorems -/

/-- C1 (confirmed).  Classification of a record matches the stated policy
exactly: a record appears in the ongoing view iff both its parsed
subscription start and end are dates with `start <= today <= end`; it
appears in the upcoming view iff its parsed start is a date with
`start > today`; and it appears in the past view iff its parsed listing
date is a date lying in the inclusive interval `[today - 90 days, today]`. -/
theorem classification_matches_policy :
    ∀ (today : Date) (rows : List UpRawRow) (rrows : List RecRawRow)
      (r : UpRecord) (p : RecRecord),
      (r ∈ ongoing_view today rows ↔
        r ∈ fetch_upcoming_processed today rows ∧ specOngoing today r)
      ∧ (r ∈ upcoming_view today rows ↔
        r ∈ fetch_upcoming_processed today rows ∧ specUpcoming today r)
      ∧ (p ∈ fetch_past_last_3_months today rrows ↔
        p ∈ fetch_recent_processed today rrows ∧ specPast today p) := by
  intro today rows rrows r p
  refine ⟨?_, ?_, ?_⟩
  · rw [ongoing_view, List.mem_filter, is_ongoing_eq_true_iff]
  · rw [upcoming_view, List.mem_filter, mask_upcoming_eq_true_iff]
  · rw [fetch_past_last_3_months, List.mem_filter, betweenMask_eq_true_iff]

/-- C9 (confirmed).  `normalize_columns` is idempotent: its output has
flat column names, none matching the serial-number or unnamed drop tests,
so a second application is a no-op. -/
theorem normalize_columns_idempotent :
    ∀ df : DataFrame, normalize_columns (normalize_columns df) = normalize_columns df := by
  intro df
  cases df with
  | multi cols => simp [normalize_columns, filter_self_filter]
  | flat cols => simp [normalize_columns, filter_self_filter]

/-- C4 counterexample.  The claim says every fetch operation returns the
empty result on network failure and never propagates an exception; but
`fetch_upcoming_raw` calls `pd.read_html` with no exception handler, so a
timeout propagates as an error instead of yielding the empty frame. -/
theorem fetch_upcoming_raw_propagates_timeout :
    fetch_upcoming_raw (Fetched.failure NetError.timeout) =
      Except.error NetError.timeout
    ∧ fetch_upcoming_raw (Fetched.failure NetError.timeout) ≠
      Except.ok (DataFrame.flat []) := by
  refine ⟨rfl, ?_⟩
  intro h
  exact Except.noConfusion h

/-- C4 (amended).  The SEBI listing fetch swallows every failure —
transport error or 4xx/5xx status — and returns no data; the two Screener
fetchers, by contrast, propagate transport failures as exceptions (they
return the empty frame only when a successfully fetched page has no
matching table). -/
theorem fetch_error_handling_amended :
    (∀ e, sebi_list_page (Fetched.failure e) = none)
    ∧ (∀ resp : SebiResponse, 400 ≤ resp.status → resp.status < 600 →
        sebi_list_page (Fetched.success resp) = none)
    ∧ (∀ e, fetch_upcoming_raw (Fetched.failure e) = Except.error e)
    ∧ (∀ e, fetch_recent_raw (Fetched.failure e) = Except.error e) := by
  refine ⟨fun e => rfl, ?_, fun e => rfl, fun e => rfl⟩
  intro resp h1 h2
  simp [sebi_list_page, h1, h2]

/-- Witness for the amended error-handling theorem at a concrete 404
response. -/
theorem fetch_error_handling_amended_witness :
    sebi_list_page (Fetched.success ⟨404, []⟩) = none :=
  fetch_error_handling_amended.2.1 ⟨404, []⟩ (by decide) (by decide)

/-- C5 counterexample.  The claim says the fetcher falls back to the first
table on the page when no header matches; but on a page whose only table
lacks the required columns the code returns the empty frame, not that
table. -/
theorem table_selection_no_fallback_counterexample :
    fetch_upcoming_raw (Fetched.success [DataFrame.flat [("A", [])]]) =
      Except.ok (DataFrame.flat [])
    ∧ (DataFrame.flat [] : DataFrame) ≠ DataFrame.flat [("A", [])] := by
  exact ⟨rfl, by decide⟩

/-- C5 (amended).  Each fetcher selects the first table whose normalized,
stripped header contains all required column names ("Name", "Subscription
Period", "Listing Date" for the upcoming source; "Name", "Listing Date"
and a name containing "IPO MCap" for the recent source); when no table
matches it returns the empty frame (there is no fallback to the first
table). -/
theorem table_selection_amended :
    ∀ tables : List DataFrame,
      fetch_upcoming_raw (Fetched.success tables) =
        Except.ok ((firstMatchingTable upcomingHeaderOk tables).getD
          (DataFrame.flat []))
      ∧ fetch_recent_raw (Fetched.success tables) =
        Except.ok ((firstMatchingTable recentHeaderOk tables).getD
          (DataFrame.flat [])) := by
  intro tables
  constructor
  · show Except.ok (selectTable upcomingHeaderOk tables) = _
    rw [selectTable_eq_firstMatching]
  · show Except.ok (selectTable recentHeaderOk tables) = _
    rw [selectTable_eq_firstMatching]

/-- C10 (confirmed).  `strip_ordinal_suffix` removes the substrings "st",
"nd", "rd", "th" anywhere in the input, not only as ordinal suffixes —
`'15 August'` becomes `'15 Augu'` and `'2nd Monday'` becomes `'2 Moay'` —
and `parse_day_month` operates on this globally-stripped text. -/
theorem strip_ordinal_global :
    strip_ordinal_suffix "15 August" = "15 Augu"
    ∧ strip_ordinal_suffix "2nd Monday" = "2 Moay"
    ∧ ∀ (todayYear : Int) (s : String) (yr : Option Int),
        parse_day_month todayYear s yr =
          parse_day_month_after_strip todayYear (strip_ordinal_suffix s) yr :=
  ⟨by decide, by decide, fun _ _ _ => rfl⟩

/-- C6 counterexample.  The claim says records lacking a company name are
dropped during normalization and the name field of every retained record
is non-empty; but a row whose Name cell is the empty string passes the
only name-based filter (the SME substring mask) and is retained with an
empty name. -/
theorem empty_name_retained_counterexample :
    (fetch_upcoming_processed ⟨2025, 12, 10⟩
      [⟨some "", some "8 Dec - 15 Dec", some "20 Dec 2025"⟩]).map UpRecord.name
      = [some ""] := by decide

/-- C6 (amended).  Normalization drops no record for lacking a name: the
upcoming pipeline's only row filter removes rows whose name contains
"sme" case-insensitively (NaN names pass it), and the recent pipeline
retains every row, so a record with an empty or missing name is kept. -/
theorem name_filter_amended :
    ∀ (today : Date) (rows : List UpRawRow) (r : UpRecord)
      (rrows : List RecRawRow) (p : RecRecord),
      (r ∈ fetch_upcoming_processed today rows ↔
        ∃ raw, raw ∈ rows ∧ smeFiltered raw.name = false
          ∧ processUpRow today raw = r)
      ∧ (p ∈ fetch_recent_processed today rrows ↔
        ∃ raw, raw ∈ rrows ∧ processRecRow today raw = p) := by
  intro today rows r rrows p
  constructor
  · rw [fetch_upcoming_processed, List.mem_map]
    constructor
    · rintro ⟨raw, hmem, heq⟩
      rw [List.mem_filter] at hmem
      exact ⟨raw, hmem.1, by simpa using hmem.2, heq⟩
    · rintro ⟨raw, hmem, hf, heq⟩
      exact ⟨raw, List.mem_filter.mpr ⟨hmem, by simpa using hf⟩, heq⟩
  · rw [fetch_recent_processed, List.mem_map]

lemma hasSub_single_of_mem {c : Char} {l : List Char} (h : c ∈ l) :
    hasSub [c] l = true := by
  induction l with
  | nil => cases h
  | cons a l ih =>
      rw [hasSub]
      rcases List.mem_cons.mp h with h1 | h2
      · subst h1; simp [leadsWith]
      · rw [ih h2]; simp

lemma takeWhile_neq_sep {sep : Char} (pre post : List Char)
    (h : ∀ c ∈ pre, c ≠ sep) :
    (pre ++ sep :: post).takeWhile (fun c => c != sep) = pre := by
  induction pre with
  | nil => simp [List.takeWhile_cons]
  | cons a l ih =>
      have ha : a ≠ sep := h a (List.mem_cons_self a l)
      simp only [List.cons_append, List.takeWhile_cons, bne_iff_ne, ne_eq, ha,
        not_false_eq_true, if_true]
      rw [ih (fun c hc => h c (List.mem_cons_of_mem _ hc))]

lemma dropWhile_neq_sep {sep : Char} (pre post : List Char)
    (h : ∀ c ∈ pre, c ≠ sep) :
    (pre ++ sep :: post).dropWhile (fun c => c != sep) = sep :: post := by
  induction pre with
  | nil => simp [List.dropWhile_cons]
  | cons a l ih =>
      have ha : a ≠ sep := h a (List.mem_cons_self a l)
      simp only [List.cons_append, List.dropWhile_cons, bne_iff_ne, ne_eq, ha,
        not_false_eq_true, if_true]
      exact ih (fun c hc => h c (List.mem_cons_of_mem _ hc))

lemma data_append3 (a b c : String) :
    (a ++ b ++ c).data = a.data ++ (b.data ++ c.data) := by
  rw [String.data_append, String.data_append, List.append_assoc]

/-- C2 (confirmed).  A subscription-period string with a hyphen is split
on the first hyphen only, each side parsed independently by
`parse_day_month` with the record's listing year as fallback, so that
"8 Dec - 15 Dec" with listing year 2025 yields 2025-12-08 / 2025-12-15;
with no hyphen, start equals end. -/
theorem subscription_period_parse :
    (∀ today : Date,
      parse_subscription today "8 Dec - 15 Dec" (some 2025) =
        (some ⟨2025, 12, 8⟩, some ⟨2025, 12, 15⟩))
    ∧ (∀ (today : Date) (s : String) (ly : Option Int),
        strContains s "-" = false →
        (parse_subscription today s ly).1 = (parse_subscription today s ly).2)
    ∧ (∀ (today : Date) (ly : Option Int) (pre post : String),
        (∀ c ∈ pre.data, c ≠ '-') →
        parse_subscription today (pre ++ "-" ++ post) ly =
          (parse_day_month today.year (pyStrip pre) ly,
           parse_day_month today.year (pyStrip post) ly))
    ∧ (∀ (today : Date) (r : UpRawRow),
        (processUpRow today r).subStart =
          (parse_subscription today (pyStr r.subPeriod)
            ((parse_listing_date_screener today r.listing).map (fun d => d.year))).1
        ∧ (processUpRow today r).subEnd =
          (parse_subscription today (pyStr r.subPeriod)
            ((parse_listing_date_screener today r.listing).map (fun d => d.year))).2) := by
  refine ⟨?_, ?_, ?_, fun today r => ⟨rfl, rfl⟩⟩
  · intro today
    have hy : yearOr (some 2025) today.year = 2025 := by simp [yearOr]
    show (strptimeDMYearInt "8" "Dec" (yearOr (some 2025) today.year),
          strptimeDMYearInt "15" "Dec" (yearOr (some 2025) today.year)) = _
    rw [hy]; decide
  · intro today s ly h
    simp [parse_subscription, h]
  · intro today ly pre post h
    have hdata : (pre ++ "-" ++ post).data = pre.data ++ ('-' :: post.data) := by
      rw [data_append3]; rfl
    have hc : strContains (pre ++ "-" ++ post) "-" = true := by
      rw [strContains, hdata]
      exact hasSub_single_of_mem (by simp)
    have hsplit : splitOnceChar '-' (pre ++ "-" ++ post) = (pre, post) := by
      rw [splitOnceChar, hdata, takeWhile_neq_sep _ _ h, dropWhile_neq_sep _ _ h]
      exact Prod.ext (String.ext rfl) (String.ext rfl)
    rw [parse_subscription, hc, if_pos rfl, hsplit]

/-- Witness for the subscription-parse theorem at concrete inputs: a
hyphen-free period gives start = end, and a concrete hyphenated period is
split at the hyphen with both sides parsed under the listing-year
fallback. -/
theorem subscription_period_parse_witness :
    (parse_subscription ⟨2025, 12, 10⟩ "15 Dec" (some 2025)).1 =
      (parse_subscription ⟨2025, 12, 10⟩ "15 Dec" (some 2025)).2
    ∧ parse_subscription ⟨2025, 12, 10⟩ ("8 Dec " ++ "-" ++ " 15 Dec") (some 2025) =
        (parse_day_month 2025 (pyStrip "8 Dec ") (some 2025),
         parse_day_month 2025 (pyStrip " 15 Dec") (some 2025)) :=
  ⟨subscription_period_parse.2.1 ⟨2025, 12, 10⟩ "15 Dec" (some 2025) (by decide),
   subscription_period_parse.2.2.1 ⟨2025, 12, 10⟩ (some 2025) "8 Dec " " 15 Dec"
     (by decide)⟩

lemma optFill_none (r : Option String) : optFill r none = r := by
  cases r <;> rfl

lemma optFill_assoc (r x y : Option String) :
    optFill (optFill r x) y = optFill r (optFill x y) := by
  cases r <;> cases x <;> rfl

lemma ite_isNone_eq_optFill (r : Option String) (u : String) :
    (if r.isNone then some u else r) = optFill r (some u) := by
  cases r <;> rfl

lemma pickAux_spec (fw : String) (l : List Anchor)
    (r d o : Option String) :
    pickAux fw l r d o =
      (optFill r (((l.filter (anchorEligible fw)).find? pickRhpPred).map
        (fun a => absUrl (anchorHref a))),
       optFill d (((l.filter (anchorEligible fw)).find? pickDraftPred).map
        (fun a => absUrl (anchorHref a))),
       optFill o (((l.filter (anchorEligible fw)).find? pickOtherPred).map
        (fun a => absUrl (anchorHref a)))) := by
  induction l generalizing r d o with
  | nil => simp [pickAux, optFill_none]
  | cons a l ih =>
      by_cases he : anchorEligible fw a = true
      · by_cases hr : strContains (anchorTitle a) "rhp" = true
        · have hr2 : pickRhpPred a = true := hr
          have hd2 : ¬ pickDraftPred a = true := by
            simp [pickDraftPred, pickRhpPred, hr]
          have ho2 : ¬ pickOtherPred a = true := by
            simp [pickOtherPred, pickRhpPred, hr]
          rw [List.filter_cons_of_pos he, pickAux, if_pos he, if_pos hr, ih,
            List.find?_cons_of_pos _ hr2, List.find?_cons_of_neg _ hd2,
            List.find?_cons_of_neg _ ho2, ite_isNone_eq_optFill, optFill_assoc]
          simp [optFill]
        · have hr0 : pickRhpPred a = false := by
            simp only [pickRhpPred]
            simpa using hr
          by_cases hdd : (strContains (anchorTitle a) "drhp"
              || strContains (anchorTitle a) "draft") = true
          · have hd2 : pickDraftPred a = true := by
              simp [pickDraftPred, hr0, hdd]
            have ho2 : ¬ pickOtherPred a = true := by
              simp [pickOtherPred, hdd]
            rw [List.filter_cons_of_pos he, pickAux, if_pos he, if_neg hr,
              if_pos hdd, ih, List.find?_cons_of_neg _ (by simp [hr0]),
              List.find?_cons_of_pos _ hd2, List.find?_cons_of_neg _ ho2,
              ite_isNone_eq_optFill, optFill_assoc]
            simp [optFill]
          · have hd0 : (strContains (anchorTitle a) "drhp"
                || strContains (anchorTitle a) "draft") = false := by
              simpa using hdd
            have hd2 : ¬ pickDraftPred a = true := by
              simp [pickDraftPred, hd0]
            have ho2 : pickOtherPred a = true := by
              simp [pickOtherPred, hr0, hd0]
            rw [List.filter_cons_of_pos he, pickAux, if_pos he, if_neg hr,
              if_neg hdd, ih, List.find?_cons_of_neg _ (by simp [hr0]),
              List.find?_cons_of_neg _ hd2, List.find?_cons_of_pos _ ho2,
              ite_isNone_eq_optFill, optFill_assoc]
            simp [optFill]
      · rw [List.filter_cons_of_neg he, pickAux, if_neg he, ih]

/-- C7 counterexample.  The claim says the first final/RHP-titled match is
preferred over the first draft-titled match; but the bucket test is a
substring check and "drhp" contains "rhp", so a DRHP-titled (draft)
anchor listed before an RHP-titled one fills the RHP slot and wins. -/
theorem drhp_title_preferred_counterexample :
    get_best_sebi_ipo_doc
      (fun _ => Fetched.success ⟨200,
        [⟨"Acme Ltd DRHP filing", some "/filings/public-issues/drhp-acme"⟩,
         ⟨"Acme Ltd RHP filing", some "/filings/public-issues/rhp-acme"⟩]⟩)
      "Acme Ltd" =
      some "https://www.sebi.gov.in/filings/public-issues/drhp-acme"
    ∧ get_best_sebi_ipo_doc
      (fun _ => Fetched.success ⟨200,
        [⟨"Acme Ltd DRHP filing", some "/filings/public-issues/drhp-acme"⟩,
         ⟨"Acme Ltd RHP filing", some "/filings/public-issues/rhp-acme"⟩]⟩)
      "Acme Ltd" ≠
      some "https://www.sebi.gov.in/filings/public-issues/rhp-acme" := by decide

/-- C7 (amended).  `get_best_sebi_ipo_doc` tries the RHP listing
(smid 11), the DRHP listing (smid 10) and the unfiltered public-issues
listing (smid 0) in order and returns the first category yielding a
truthy link; within a page only anchors under `/filings/public-issues/`
whose title contains the company's first word are considered, and the
first anchor whose lower-cased title contains the substring "rhp" (which
includes DRHP titles) is preferred over the first whose title contains
"draft"/"drhp" without "rhp", which is preferred over the first other
match. -/
theorem sebi_doc_selection_amended :
    ∀ (company : String) (anchors : List Anchor)
      (net : SebiParams → Fetched SebiResponse),
      pick_doc_from_listing (some anchors) company = specPickDoc company anchors
      ∧ pick_doc_from_listing none company = none
      ∧ get_best_sebi_ipo_doc net company =
          pyOrStr (pick_doc_from_listing (sebi_list_page (net ⟨"11", company⟩)) company)
            (pyOrStr
              (pick_doc_from_listing (sebi_list_page (net ⟨"10", company⟩)) company)
              (pick_doc_from_listing (sebi_list_page (net ⟨"0", company⟩)) company)) := by
  intro company anchors net
  refine ⟨?_, rfl, rfl⟩
  show pyOrStr (pickAux (firstWordOf company) anchors none none none).1 _ = _
  rw [pickAux_spec]
  rfl

lemma replace2_cons_ne (a b x : Char) (l : List Char) (h : x ≠ a) :
    replace2 a b (x :: l) = x :: replace2 a b l := by
  cases l with
  | nil => rfl
  | cons y rest =>
      rw [replace2]
      simp [h]

lemma replace2_eat (a b : Char) (l : List Char) :
    replace2 a b (a :: b :: l) = replace2 a b l := by
  rw [replace2]
  simp

lemma replace2_skip (a b : Char) (pre l : List Char) (h : ∀ c ∈ pre, c ≠ a) :
    replace2 a b (pre ++ l) = pre ++ replace2 a b l := by
  induction pre with
  | nil => rfl
  | cons x pre ih =>
      rw [List.cons_append,
        replace2_cons_ne a b x _ (h x (List.mem_cons_self x pre)),
        ih (fun c hc => h c (List.mem_cons_of_mem _ hc))]
      rfl

lemma digit_ne_letters {c : Char} (h : isDigitC c = true) :
    c ≠ 's' ∧ c ≠ 'n' ∧ c ≠ 'r' ∧ c ≠ 't' := by
  have hm : c ∈ digitChars := by
    simpa [isDigitC] using h
  simp only [digitChars, List.mem_cons, List.not_mem_nil, or_false] at hm
  rcases hm with h | h | h | h | h | h | h | h | h | h <;> subst h <;> decide

lemma stripOrdL_digits_space (nd md : List Char)
    (hn : ∀ c ∈ nd, isDigitC c = true) :
    stripOrdL (nd ++ ' ' :: md) = nd ++ ' ' :: stripOrdL md := by
  have hns : ∀ c ∈ nd, c ≠ 's' := fun c hc => (digit_ne_letters (hn c hc)).1
  have hnn : ∀ c ∈ nd, c ≠ 'n' := fun c hc => (digit_ne_letters (hn c hc)).2.1
  have hnr : ∀ c ∈ nd, c ≠ 'r' := fun c hc => (digit_ne_letters (hn c hc)).2.2.1
  have hnt : ∀ c ∈ nd, c ≠ 't' := fun c hc => (digit_ne_letters (hn c hc)).2.2.2
  unfold stripOrdL
  rw [replace2_skip 's' 't' nd _ hns, replace2_cons_ne 's' 't' ' ' _ (by decide),
    replace2_skip 'n' 'd' nd _ hnn, replace2_cons_ne 'n' 'd' ' ' _ (by decide),
    replace2_skip 'r' 'd' nd _ hnr, replace2_cons_ne 'r' 'd' ' ' _ (by decide),
    replace2_skip 't' 'h' nd _ hnt, replace2_cons_ne 't' 'h' ' ' _ (by decide)]

lemma stripOrdL_suffixed (nd md suf : List Char)
    (hn : ∀ c ∈ nd, isDigitC c = true)
    (hs : suf = ['s', 't'] ∨ suf = ['n', 'd'] ∨ suf = ['r', 'd'] ∨ suf = ['t', 'h']) :
    stripOrdL (nd ++ suf ++ ' ' :: md) = nd ++ ' ' :: stripOrdL md := by
  have hns : ∀ c ∈ nd, c ≠ 's' := fun c hc => (digit_ne_letters (hn c hc)).1
  have hnn : ∀ c ∈ nd, c ≠ 'n' := fun c hc => (digit_ne_letters (hn c hc)).2.1
  have hnr : ∀ c ∈ nd, c ≠ 'r' := fun c hc => (digit_ne_letters (hn c hc)).2.2.1
  have hnt : ∀ c ∈ nd, c ≠ 't' := fun c hc => (digit_ne_letters (hn c hc)).2.2.2
  rcases hs with h | h | h | h <;> subst h <;> rw [List.append_assoc] <;>
    unfold stripOrdL
  · rw [replace2_skip 's' 't' nd _ hns]
    rw [show (['s', 't'] ++ ' ' :: md : List Char) = 's' :: 't' :: ' ' :: md from rfl]
    rw [replace2_eat 's' 't', replace2_cons_ne 's' 't' ' ' _ (by decide),
      replace2_skip 'n' 'd' nd _ hnn, replace2_cons_ne 'n' 'd' ' ' _ (by decide),
      replace2_skip 'r' 'd' nd _ hnr, replace2_cons_ne 'r' 'd' ' ' _ (by decide),
      replace2_skip 't' 'h' nd _ hnt, replace2_cons_ne 't' 'h' ' ' _ (by decide)]
  · rw [show (['n', 'd'] ++ ' ' :: md : List Char) = 'n' :: 'd' :: ' ' :: md from rfl]
    rw [replace2_skip 's' 't' nd _ hns, replace2_cons_ne 's' 't' 'n' _ (by decide),
      replace2_cons_ne 's' 't' 'd' _ (by decide),
      replace2_cons_ne 's' 't' ' ' _ (by decide),
      replace2_skip 'n' 'd' nd _ hnn, replace2_eat 'n' 'd',
      replace2_cons_ne 'n' 'd' ' ' _ (by decide),
      replace2_skip 'r' 'd' nd _ hnr, replace2_cons_ne 'r' 'd' ' ' _ (by decide),
      replace2_skip 't' 'h' nd _ hnt, replace2_cons_ne 't' 'h' ' ' _ (by decide)]
  · rw [show (['r', 'd'] ++ ' ' :: md : List Char) = 'r' :: 'd' :: ' ' :: md from rfl]
    rw [replace2_skip 's' 't' nd _ hns, replace2_cons_ne 's' 't' 'r' _ (by decide),
      replace2_cons_ne 's' 't' 'd' _ (by decide),
      replace2_cons_ne 's' 't' ' ' _ (by decide),
      replace2_skip 'n' 'd' nd _ hnn, replace2_cons_ne 'n' 'd' 'r' _ (by decide),
      replace2_cons_ne 'n' 'd' 'd' _ (by decide),
      replace2_cons_ne 'n' 'd' ' ' _ (by decide),
      replace2_skip 'r' 'd' nd _ hnr, replace2_eat 'r' 'd',
      replace2_cons_ne 'r' 'd' ' ' _ (by decide),
      replace2_skip 't' 'h' nd _ hnt, replace2_cons_ne 't' 'h' ' ' _ (by decide)]
  · rw [show (['t', 'h'] ++ ' ' :: md : List Char) = 't' :: 'h' :: ' ' :: md from rfl]
    rw [replace2_skip 's' 't' nd _ hns, replace2_cons_ne 's' 't' 't' _ (by decide),
      replace2_cons_ne 's' 't' 'h' _ (by decide),
      replace2_cons_ne 's' 't' ' ' _ (by decide),
      replace2_skip 'n' 'd' nd _ hnn, replace2_cons_ne 'n' 'd' 't' _ (by decide),
      replace2_cons_ne 'n' 'd' 'h' _ (by decide),
      replace2_cons_ne 'n' 'd' ' ' _ (by decide),
      replace2_skip 'r' 'd' nd _ hnr, replace2_cons_ne 'r' 'd' 't' _ (by decide),
      replace2_cons_ne 'r' 'd' 'h' _ (by decide),
      replace2_cons_ne 'r' 'd' ' ' _ (by decide),
      replace2_skip 't' 'h' nd _ hnt, replace2_eat 't' 'h',
      replace2_cons_ne 't' 'h' ' ' _ (by decide)]

/-- C8 (confirmed).  For a day/month string whose all-digit day token
carries an ordinal suffix, `parse_day_month` yields the same result as on
the corresponding unsuffixed string under the same fallback year: the
global suffix stripping removes exactly the suffix and both strings reach
the same stripped text. -/
theorem ordinal_suffix_parse_invariance :
    ∀ (todayYear : Int) (yr : Option Int) (n m suf : String),
      suf ∈ (["st", "nd", "rd", "th"] : List String) →
      (∀ c ∈ n.data, isDigitC c = true) →
      parse_day_month todayYear (n ++ suf ++ " " ++ m) yr =
        parse_day_month todayYear (n ++ " " ++ m) yr := by
  intro ty yr n m suf hs hdig
  have hsuffd : suf.data = ['s', 't'] ∨ suf.data = ['n', 'd']
      ∨ suf.data = ['r', 'd'] ∨ suf.data = ['t', 'h'] := by
    simp only [List.mem_cons, List.not_mem_nil, or_false] at hs
    rcases hs with h | h | h | h <;> subst h
    · exact Or.inl rfl
    · exact Or.inr (Or.inl rfl)
    · exact Or.inr (Or.inr (Or.inl rfl))
    · exact Or.inr (Or.inr (Or.inr rfl))
  have hd1 : (n ++ suf ++ " " ++ m).data = n.data ++ suf.data ++ ' ' :: m.data := by
    simp [String.data_append]
  have hd2 : (n ++ " " ++ m).data = n.data ++ ' ' :: m.data := by
    simp [String.data_append]
  have key : strip_ordinal_suffix (n ++ suf ++ " " ++ m) =
      strip_ordinal_suffix (n ++ " " ++ m) := by
    rw [strip_ordinal_suffix, strip_ordinal_suffix, hd1, hd2,
      stripOrdL_suffixed n.data m.data suf.data hdig hsuffd,
      stripOrdL_digits_space n.data m.data hdig]
  rw [parse_day_month, parse_day_month, key]

/-- Witness for the suffix-invariance theorem: "8th Dec" and "8 Dec"
parse identically under fallback year 2025. -/
theorem ordinal_suffix_parse_invariance_witness :
    parse_day_month 2025 ("8" ++ "th" ++ " " ++ "Dec") (some 2025) =
      parse_day_month 2025 ("8" ++ " " ++ "Dec") (some 2025) :=
  ordinal_suffix_parse_invariance 2025 (some 2025) "8" "Dec" "th"
    (by decide) (by decide)

lemma digit_char_facts {c : Char} (h : isDigitC c = true) :
    lowerChar c = c ∧ isWsChar c = false ∧ c ≠ '-' := by
  have hm : c ∈ digitChars := by
    simpa [isDigitC] using h
  simp only [digitChars, List.mem_cons, List.not_mem_nil, or_false] at hm
  rcases hm with h | h | h | h | h | h | h | h | h | h <;> subst h <;> decide

lemma month_tok_facts {ms : String} (h : ms ∈ monthAbbrevs) :
    ms.data ≠ [] ∧ ∀ c ∈ ms.data, lowerChar c = c ∧ isWsChar c = false ∧ c ≠ '-' := by
  simp only [monthAbbrevs, List.mem_cons, List.not_mem_nil, or_false] at h
  rcases h with h | h | h | h | h | h | h | h | h | h | h | h <;> subst h <;> decide

lemma parseDayTok_shape {ds : String} {d : Nat} (h : parseDayTok ds = some d) :
    ds.data ≠ [] ∧ ∀ c ∈ ds.data, isDigitC c = true := by
  cases ds with
  | mk l =>
    cases l with
    | nil => exact absurd h (by simp [parseDayTok])
    | cons c rest =>
      cases rest with
      | nil =>
          refine ⟨by simp, ?_⟩
          intro x hx
          simp only [List.mem_cons, List.not_mem_nil, or_false] at hx
          subst hx
          by_cases hc : isDigitC x = true
          · exact hc
          · have hc0 : isDigitC x = false := by simpa using hc
            simp [parseDayTok, hc0] at h
      | cons c2 rest2 =>
          cases rest2 with
          | nil =>
              simp only [parseDayTok] at h
              by_cases hc : (isDigitC c && isDigitC c2) = true
              · rcases (by simpa using hc : isDigitC c = true ∧ isDigitC c2 = true)
                  with ⟨hc1, hc2⟩
                refine ⟨by simp, ?_⟩
                intro x hx
                simp only [List.mem_cons, List.not_mem_nil, or_false] at hx
                rcases hx with hx | hx <;> subst hx <;> assumption
              · have hc0 : (isDigitC c && isDigitC c2) = false := by simpa using hc
                rw [hc0] at h
                simp at h
          | cons _ _ => exact absurd h (by simp [parseDayTok])

lemma parseYearTok_shape {ys : String} {y : Int} (h : parseYearTok ys = some y) :
    ∃ a b c e, ys.data = [a, b, c, e] ∧ ∀ x ∈ ys.data, isDigitC x = true := by
  cases ys with
  | mk l =>
    cases l with
    | nil => exact absurd h (by simp [parseYearTok])
    | cons a t1 =>
      cases t1 with
      | nil => exact absurd h (by simp [parseYearTok])
      | cons b t2 =>
        cases t2 with
        | nil => exact absurd h (by simp [parseYearTok])
        | cons c t3 =>
          cases t3 with
          | nil => exact absurd h (by simp [parseYearTok])
          | cons e t4 =>
            cases t4 with
            | cons f t5 => exact absurd h (by simp [parseYearTok])
            | nil =>
                refine ⟨a, b, c, e, rfl, ?_⟩
                simp only [parseYearTok] at h
                by_cases hc :
                    (isDigitC a && isDigitC b && isDigitC c && isDigitC e) = true
                · rcases (by simpa [Bool.and_assoc] using hc :
                      isDigitC a = true ∧ isDigitC b = true
                        ∧ isDigitC c = true ∧ isDigitC e = true)
                    with ⟨hca, hcb, hcc, hce⟩
                  intro x hx
                  simp only [List.mem_cons, List.not_mem_nil, or_false] at hx
                  rcases hx with hx | hx | hx | hx <;> subst hx <;> assumption
                · have hc0 :
                      (isDigitC a && isDigitC b && isDigitC c && isDigitC e) = false := by
                    simpa using hc
                  rw [hc0] at h
                  simp at h

lemma splitWsAux_token (t : List Char) (l acc : List Char)
    (h : ∀ c ∈ t, isWsChar c = false) :
    splitWsAux (t ++ l) acc = splitWsAux l (t.reverse ++ acc) := by
  induction t generalizing acc with
  | nil => simp
  | cons c t ih =>
      have hc : isWsChar c = false := h c (List.mem_cons_self c t)
      rw [List.cons_append, splitWsAux, hc]
      rw [ih (c :: acc) (fun x hx => h x (List.mem_cons_of_mem _ hx))]
      simp

lemma splitWsAux_sep (t rest : List Char) (ht : t ≠ [])
    (h : ∀ c ∈ t, isWsChar c = false) :
    splitWsAux (t ++ ' ' :: rest) [] = t :: splitWsAux rest [] := by
  rw [splitWsAux_token t _ [] h, List.append_nil, splitWsAux]
  have hrev : t.reverse ≠ [] := by simpa using ht
  simp [hrev, isWsChar]

lemma splitWsAux_end (t : List Char) (ht : t ≠ [])
    (h : ∀ c ∈ t, isWsChar c = false) :
    splitWsAux t [] = [t] := by
  have h0 := splitWsAux_token t [] [] h
  rw [List.append_nil] at h0
  rw [h0, splitWsAux, List.append_nil]
  have hrev : t.reverse ≠ [] := by simpa using ht
  simp [hrev]

lemma pySplitWs_pair {t1 t2 : String} (ht1 : t1.data ≠ []) (ht2 : t2.data ≠ [])
    (h1 : ∀ c ∈ t1.data, isWsChar c = false)
    (h2 : ∀ c ∈ t2.data, isWsChar c = false) :
    pySplitWs (t1 ++ " " ++ t2) = [t1, t2] := by
  have hd : (t1 ++ " " ++ t2).data = t1.data ++ ' ' :: t2.data := by
    simp [String.data_append]
  rw [pySplitWs, hd, splitWsAux_sep _ _ ht1 h1, splitWsAux_end _ ht2 h2]
  cases t1
  cases t2
  rfl

lemma pySplitWs_triple {t1 t2 t3 : String}
    (ht1 : t1.data ≠ []) (ht2 : t2.data ≠ []) (ht3 : t3.data ≠ [])
    (h1 : ∀ c ∈ t1.data, isWsChar c = false)
    (h2 : ∀ c ∈ t2.data, isWsChar c = false)
    (h3 : ∀ c ∈ t3.data, isWsChar c = false) :
    pySplitWs (t1 ++ " " ++ t2 ++ " " ++ t3) = [t1, t2, t3] := by
  have hd : (t1 ++ " " ++ t2 ++ " " ++ t3).data =
      t1.data ++ ' ' :: (t2.data ++ ' ' :: t3.data) := by
    simp [String.data_append]
  rw [pySplitWs, hd, splitWsAux_sep _ _ ht1 h1, splitWsAux_sep _ _ ht2 h2,
    splitWsAux_end _ ht3 h3]
  cases t1
  cases t2
  cases t3
  rfl

lemma splitOnCharAux_no_sep (sep : Char) (l acc : List Char)
    (h : ∀ c ∈ l, c ≠ sep) :
    splitOnCharAux sep l acc = [acc.reverse ++ l] := by
  induction l generalizing acc with
  | nil => simp [splitOnCharAux]
  | cons c rest ih =>
      have hc : c ≠ sep := h c (List.mem_cons_self c rest)
      rw [splitOnCharAux, if_neg hc,
        ih (c :: acc) (fun x hx => h x (List.mem_cons_of_mem _ hx))]
      simp

lemma splitOnChar_no_sep {sep : Char} {s : String} (h : ∀ c ∈ s.data, c ≠ sep) :
    splitOnChar sep s = [s] := by
  rw [splitOnChar, splitOnCharAux_no_sep sep _ [] h]
  cases s
  rfl

lemma stripLeft_of_head {l : List Char}
    (h : ∀ c, l.head? = some c → isWsChar c = false) : stripLeft l = l := by
  cases l with
  | nil => rfl
  | cons c rest =>
      have hc := h c rfl
      simp [stripLeft, List.dropWhile_cons, hc]

lemma pyStrip_eq_self {s : String}
    (h1 : ∀ c, s.data.head? = some c → isWsChar c = false)
    (h2 : ∀ c, s.data.reverse.head? = some c → isWsChar c = false) :
    pyStrip s = s := by
  cases s with
  | mk l =>
      show (⟨stripLeft (stripLeft l.reverse).reverse⟩ : String) = ⟨l⟩
      rw [stripLeft_of_head h2, List.reverse_reverse, stripLeft_of_head h1]

lemma lowerStr_eq_self {s : String} (h : ∀ c ∈ s.data, lowerChar c = c) :
    lowerStr s = s := by
  cases s with
  | mk l =>
      show (⟨l.map lowerChar⟩ : String) = ⟨l⟩
      congr 1
      induction l with
      | nil => rfl
      | cons c rest ih =>
          rw [List.map_cons, h c (List.mem_cons_self c rest),
            ih (fun x hx => h x (List.mem_cons_of_mem _ hx))]

lemma digit_head_ne_keywords {v : String} {c : Char} {cs : List Char}
    (hv : v.data = c :: cs) (hc : isDigitC c = true) :
    v ≠ "today" ∧ v ≠ "tomorrow" ∧ v ≠ "yesterday" := by
  refine ⟨?_, ?_, ?_⟩ <;> intro h <;> subst h
  · rw [show ("today" : String).data = ['t', 'o', 'd', 'a', 'y'] from rfl] at hv
    injection hv with h1 _
    subst h1
    exact absurd hc (by decide)
  · rw [show ("tomorrow" : String).data =
      ['t', 'o', 'm', 'o', 'r', 'r', 'o', 'w'] from rfl] at hv
    injection hv with h1 _
    subst h1
    exact absurd hc (by decide)
  · rw [show ("yesterday" : String).data =
      ['y', 'e', 's', 't', 'e', 'r', 'd', 'a', 'y'] from rfl] at hv
    injection hv with h1 _
    subst h1
    exact absurd hc (by decide)

lemma fixYear1900_mk (today : Date) (y : Int) (m d : Nat) :
    fixYear1900 today ⟨y, m, d⟩ = ⟨if y = 1900 then today.year else y, m, d⟩ := by
  rw [fixYear1900]
  split <;> simp_all

/-- C3 (amended).  In the format loop of `parse_listing_date_screener`
the current year is substituted exactly when the parsed value's year is
1900 — that is, when the matched format omits the year, or when the
explicit year itself is 1900; every other explicit year is kept. -/
theorem listing_year_substitution_amended :
    ∀ (today : Date) (ds ms ys : String) (d m : Nat) (y : Int),
      parseDayTok ds = some d →
      ms ∈ monthAbbrevs →
      parseMonthTok ms = some m →
      ((parseYearTok ys = some y → 1 ≤ y → d ≤ daysInMonth y m →
        parse_listing_date_screener today (some (ds ++ " " ++ ms ++ " " ++ ys)) =
          some ⟨if y = 1900 then today.year else y, m, d⟩)
      ∧ (d ≤ daysInMonth 1900 m →
        parse_listing_date_screener today (some (ds ++ " " ++ ms)) =
          some ⟨today.year, m, d⟩)) := by
  intro today ds ms ys d m y hd hmsm hm
  obtain ⟨hdsne, hdsdig⟩ := parseDayTok_shape hd
  obtain ⟨hmsne, hmsf⟩ := month_tok_facts hmsm
  have hdsws : ∀ c ∈ ds.data, isWsChar c = false :=
    fun c hc => (digit_char_facts (hdsdig c hc)).2.1
  have hdslow : ∀ c ∈ ds.data, lowerChar c = c :=
    fun c hc => (digit_char_facts (hdsdig c hc)).1
  have hdshy : ∀ c ∈ ds.data, c ≠ '-' :=
    fun c hc => (digit_char_facts (hdsdig c hc)).2.2
  have hmsws : ∀ c ∈ ms.data, isWsChar c = false := fun c hc => (hmsf c hc).2.1
  have hmslow : ∀ c ∈ ms.data, lowerChar c = c := fun c hc => (hmsf c hc).1
  have hmshy : ∀ c ∈ ms.data, c ≠ '-' := fun c hc => (hmsf c hc).2.2
  obtain ⟨c0, cs0, hds0⟩ := List.exists_cons_of_ne_nil hdsne
  have hc0dig : isDigitC c0 = true := hdsdig c0 (by rw [hds0]; exact List.mem_cons_self _ _)
  constructor
  · intro hy hy1 hval
    obtain ⟨a, b, cc, e, hysd, hysdig⟩ := parseYearTok_shape hy
    have hysne : ys.data ≠ [] := by rw [hysd]; simp
    have hysws : ∀ c ∈ ys.data, isWsChar c = false :=
      fun c hc => (digit_char_facts (hysdig c hc)).2.1
    have hyslow : ∀ c ∈ ys.data, lowerChar c = c :=
      fun c hc => (digit_char_facts (hysdig c hc)).1
    have hvdata : (ds ++ " " ++ ms ++ " " ++ ys).data =
        ds.data ++ ' ' :: (ms.data ++ ' ' :: ys.data) := by
      simp [String.data_append]
    have hvd2 : (ds ++ " " ++ ms ++ " " ++ ys).data =
        c0 :: (cs0 ++ ' ' :: (ms.data ++ ' ' :: ys.data)) := by
      rw [hvdata, hds0, List.cons_append]
    have hstrip : pyStrip (ds ++ " " ++ ms ++ " " ++ ys) =
        ds ++ " " ++ ms ++ " " ++ ys := by
      apply pyStrip_eq_self
      · intro c hcc
        rw [hvd2] at hcc
        simp only [List.head?_cons, Option.some.injEq] at hcc
        subst hcc
        exact (digit_char_facts hc0dig).2.1
      · intro c hcc
        have hrev : (ds ++ " " ++ ms ++ " " ++ ys).data.reverse =
            e :: (cc :: b :: a :: (' ' :: (ms.data.reverse
              ++ ' ' :: ds.data.reverse))) := by
          rw [hvdata, hysd]
          simp
        rw [hrev] at hcc
        simp only [List.head?_cons, Option.some.injEq] at hcc
        subst hcc
        exact (digit_char_facts (hysdig e (by rw [hysd]; simp))).2.1
    have hlow : lowerStr (ds ++ " " ++ ms ++ " " ++ ys) =
        ds ++ " " ++ ms ++ " " ++ ys := by
      apply lowerStr_eq_self
      intro c hcc
      rw [hvdata] at hcc
      simp only [List.mem_append, List.mem_cons] at hcc
      rcases hcc with h | h | h | h | h
      · exact hdslow c h
      · subst h; decide
      · exact hmslow c h
      · subst h; decide
      · exact hyslow c h
    have hkw := digit_head_ne_keywords hvd2 hc0dig
    have hsplit : pySplitWs (ds ++ " " ++ ms ++ " " ++ ys) = [ds, ms, ys] :=
      pySplitWs_triple hdsne hmsne hysne hdsws hmsws hysws
    have hstrp : strptimeTokensDMY ds ms ys = some ⟨y, m, d⟩ := by
      simp only [strptimeTokensDMY, hd, hm, hy]
      rw [if_pos ⟨hy1, hval⟩]
    have hfmt1 : tryFmtDMY (ds ++ " " ++ ms ++ " " ++ ys) = some ⟨y, m, d⟩ := by
      rw [tryFmtDMY, hsplit]
      exact hstrp
    show (if lowerStr (pyStrip (ds ++ " " ++ ms ++ " " ++ ys)) = "today" then
        some today
      else if lowerStr (pyStrip (ds ++ " " ++ ms ++ " " ++ ys)) = "tomorrow" then
        some (addDays today 1)
      else if lowerStr (pyStrip (ds ++ " " ++ ms ++ " " ++ ys)) = "yesterday" then
        some (addDays today (-1))
      else parse_listing_formats today
        (lowerStr (pyStrip (ds ++ " " ++ ms ++ " " ++ ys)))) = _
    rw [hstrip, hlow, if_neg hkw.1, if_neg hkw.2.1, if_neg hkw.2.2,
      parse_listing_formats, hfmt1]
    show some (fixYear1900 today ⟨y, m, d⟩) = _
    rw [fixYear1900_mk]
  · intro hval
    have hv2data : (ds ++ " " ++ ms).data = ds.data ++ ' ' :: ms.data := by
      simp [String.data_append]
    have hv2d2 : (ds ++ " " ++ ms).data = c0 :: (cs0 ++ ' ' :: ms.data) := by
      rw [hv2data, hds0, List.cons_append]
    obtain ⟨cm, csm, hmsrev⟩ :=
      List.exists_cons_of_ne_nil (show ms.data.reverse ≠ [] by simpa using hmsne)
    have hcmws : isWsChar cm = false := by
      have : cm ∈ ms.data := by
        rw [← List.mem_reverse, hmsrev]
        exact List.mem_cons_self _ _
      exact hmsws cm this
    have hstrip : pyStrip (ds ++ " " ++ ms) = ds ++ " " ++ ms := by
      apply pyStrip_eq_self
      · intro c hcc
        rw [hv2d2] at hcc
        simp only [List.head?_cons, Option.some.injEq] at hcc
        subst hcc
        exact (digit_char_facts hc0dig).2.1
      · intro c hcc
        have hrev : (ds ++ " " ++ ms).data.reverse =
            cm :: (csm ++ ' ' :: ds.data.reverse) := by
          rw [hv2data]
          simp [hmsrev]
        rw [hrev] at hcc
        simp only [List.head?_cons, Option.some.injEq] at hcc
        subst hcc
        exact hcmws
    have hlow : lowerStr (ds ++ " " ++ ms) = ds ++ " " ++ ms := by
      apply lowerStr_eq_self
      intro c hcc
      rw [hv2data] at hcc
      simp only [List.mem_append, List.mem_cons] at hcc
      rcases hcc with h | h | h
      · exact hdslow c h
      · subst h; decide
      · exact hmslow c h
    have hkw := digit_head_ne_keywords hv2d2 hc0dig
    have hsplit : pySplitWs (ds ++ " " ++ ms) = [ds, ms] :=
      pySplitWs_pair hdsne hmsne hdsws hmsws
    have hfmt1 : tryFmtDMY (ds ++ " " ++ ms) = none := by
      rw [tryFmtDMY, hsplit]
    have hnohy : ∀ c ∈ (ds ++ " " ++ ms).data, c ≠ '-' := by
      intro c hcc
      rw [hv2data] at hcc
      simp only [List.mem_append, List.mem_cons] at hcc
      rcases hcc with h | h | h
      · exact hdshy c h
      · subst h; decide
      · exact hmshy c h
    have hfmt2 : tryFmtDMYHyphen (ds ++ " " ++ ms) = none := by
      rw [tryFmtDMYHyphen, splitOnChar_no_sep hnohy]
    have hstrp : strptimeTokensDM ds ms = some ⟨1900, m, d⟩ := by
      simp only [strptimeTokensDM, hd, hm]
      rw [if_pos hval]
    have hfmt3 : tryFmtDM (ds ++ " " ++ ms) = some ⟨1900, m, d⟩ := by
      rw [tryFmtDM, hsplit]
      exact hstrp
    show (if lowerStr (pyStrip (ds ++ " " ++ ms)) = "today" then some today
      else if lowerStr (pyStrip (ds ++ " " ++ ms)) = "tomorrow" then
        some (addDays today 1)
      else if lowerStr (pyStrip (ds ++ " " ++ ms)) = "yesterday" then
        some (addDays today (-1))
      else parse_listing_formats today (lowerStr (pyStrip (ds ++ " " ++ ms)))) = _
    rw [hstrip, hlow, if_neg hkw.1, if_neg hkw.2.1, if_neg hkw.2.2,
      parse_listing_formats, hfmt1, hfmt2, hfmt3]
    show some (fixYear1900 today ⟨1900, m, d⟩) = _
    rw [fixYear1900_mk]
    norm_num

/-- C3 counterexample.  The claim says an input whose matched format has
an explicit year keeps that year for every value including 1900; but the
code substitutes the current year whenever the parsed year equals 1900,
so "15 Dec 1900" with today in 2025 parses to 2025-12-15, not
1900-12-15. -/
theorem explicit_year_1900_counterexample :
    parse_listing_date_screener ⟨2025, 12, 10⟩ (some "15 Dec 1900") =
      some ⟨2025, 12, 15⟩
    ∧ parse_listing_date_screener ⟨2025, 12, 10⟩ (some "15 Dec 1900") ≠
      some ⟨1900, 12, 15⟩ := by decide

/-- Witness for the amended year-substitution theorem at the concrete
tokens "15", "dec", "1900". -/
theorem listing_year_substitution_amended_witness :
    parse_listing_date_screener ⟨2025, 12, 10⟩
      (some ("15" ++ " " ++ "dec" ++ " " ++ "1900")) = some ⟨2025, 12, 15⟩ := by
  have h := (listing_year_substitution_amended ⟨2025, 12, 10⟩ "15" "dec" "1900"
    15 12 1900 (by decide) (by decide) (by decide)).1 (by decide) (by decide)
    (by decide)
  simpa using h

/-- Sanity checks of the civil-day arithmetic model (the spec's own
worked window: 2025-12-10 minus 90 days is 2025-09-11). -/
lemma addDays_model_sanity :
    addDays ⟨2025, 12, 10⟩ (-90) = ⟨2025, 9, 11⟩
    ∧ addDays ⟨2025, 12, 31⟩ 1 = ⟨2026, 1, 1⟩
    ∧ addDays ⟨2024, 2, 28⟩ 1 = ⟨2024, 2, 29⟩
    ∧ addDays ⟨2025, 1, 1⟩ (-1) = ⟨2024, 12, 31⟩ := by decide

/-- Sanity checks of the date-parsing model on representative inputs. -/
lemma parse_model_sanity :
    parse_day_month 2025 "8th Dec" none = some ⟨2025, 12, 8⟩
    ∧ parse_day_month 2024 "15 Dec 2025" none = some ⟨2025, 12, 15⟩
    ∧ parse_day_month 2025 "30 Feb" none = none
    ∧ parse_day_month 2025 "15 Dec" (some 2030) = some ⟨2030, 12, 15⟩
    ∧ parse_listing_date_screener ⟨2025, 12, 10⟩ (some " Today ") =
        some ⟨2025, 12, 10⟩
    ∧ parse_listing_date_screener ⟨2025, 12, 10⟩ (some "tomorrow") =
        some ⟨2025, 12, 11⟩
    ∧ parse_listing_date_screener ⟨2025, 12, 10⟩ (some "15-Dec-2024") =
        some ⟨2024, 12, 15⟩
    ∧ parse_listing_date_screener ⟨2025, 12, 10⟩ (some "29 Feb") = none := by
  decide
